import Mathlib

/-!
Verification of the D-Bus helper of `st/util/dbus.go` (streamtools).

The development shallowly embeds the signature-driven type resolver
(`dbusTypeFor`), the value converter (`dbusConv` / `DBusConv`) and the
connection lifecycle manager (`Open`, `Close`, `IsOpen`,
`InsertMatchRule`, `RemoveMatchRule`, `RemoveAllMatchRules`).

Modelling conventions:
* Go strings are `List Char` (signatures are ASCII, so byte indices of
  `for i, v := range s` coincide with rune positions).
* Go's multiple-return `(res, rem, err)` shapes become `Except`; run-time
  panics (out-of-range indexing, `NumField` on a non-struct) are a
  distinguished `GoStop.panicked` outcome, since those Go statements
  abort the call rather than return an error value.
* The successful result of a parsing/conversion step carries a proof
  that the remainder is strictly shorter than the input; this is the
  Go invariant "every case consumes at least one signature character"
  and drives the well-founded recursion.
* External collaborators (`godbus`: bus constructors, `Auth`, `Hello`,
  `AddMatch`/`RemoveMatch` calls) are an explicit environment `BusEnv`;
  the state-changing helpers also return the list of calls they issued
  to the underlying library (`trace`), so that "issues the bus call",
  "never closes the shared handle" etc. are statable.
-/

namespace StUtil

/-- Go `reflect.Type` values that `dbusTypeFor` can produce.  The structure
case mirrors the source exactly: the Go code builds an *anonymous struct of
1..16 `interface{}` fields*, so only the field count survives resolution
(`types` is discarded); `tanonStruct n` records exactly that. -/
inductive RType where
  | tbyte | tbool | tint16 | tuint16 | tint32 | tuint32 | tint64 | tuint64
  | tfloat64 | tstring | tsignature | tobjectPath | tvariant | tunixFD
  | tslice (elem : RType)
  | tmap (key val : RType)
  | tanonStruct (n : Nat)
deriving DecidableEq, Repr

/-- Errors produced by `dbusTypeFor`, one constructor per `fmt.Errorf` site,
carrying the signature fragment the Go message interpolates. -/
inductive TErr where
  | empty (sig : List Char)
  | tooShortForDict (inner : List Char)
  | badDictKey (ksig : List Char) (e : TErr)
  | badDictValue (vsig : List Char) (e : TErr)
  | unmatchedBrace (sig : List Char)
  | emptyStructure (inner : List Char)
  | tooManyFields (sigrem : List Char)
  | unmatchedParen (sig : List Char)
  | unknownTypeChar (sig : List Char)
deriving DecidableEq, Repr

/-- `match(s, left, right)` of the source: scan left to right with a depth
counter (`n++` on `left`, `n--` on `right`, return the index when the
counter returns to zero).  `none` is Go's `-1`. -/
def matchFrom (left right : Char) : List Char → Nat → Int → Option Nat
  | [], _, _ => none
  | c :: cs, i, n =>
    if c = left then matchFrom left right cs (i + 1) (n + 1)
    else if c = right then
      if n - 1 = 0 then some i else matchFrom left right cs (i + 1) (n - 1)
    else matchFrom left right cs (i + 1) n

/-- Entry point of the Go `match` helper. -/
def matchDelim (s : List Char) (left right : Char) : Option Nat :=
  matchFrom left right s 0 0

/-- A successful resolution: the type, the unconsumed remainder, and the
consumption invariant. -/
structure TypeOk (n : Nat) where
  t : RType
  rem : List Char
  hlt : rem.length < n

theorem length_drop_lt_cons (c : Char) (cs : List Char) (i : Nat) :
    ((c :: cs).drop (i + 1)).length < (c :: cs).length := by
  simp only [List.length_drop, List.length_cons]
  omega

/-- The `switch len(types)` of the structure case: Go returns an anonymous
struct with exactly 1..16 `interface{}` fields, and errors ("structure has
too many fields") otherwise; at that point the loop has consumed the inner
span, so the interpolated signature fragment is empty. -/
def structFromArity (k : Nat) {n : Nat} (rem : List Char) (h : rem.length < n) :
    Except TErr (TypeOk n) :=
  if k = 1 then .ok ⟨.tanonStruct 1, rem, h⟩
  else if k = 2 then .ok ⟨.tanonStruct 2, rem, h⟩
  else if k = 3 then .ok ⟨.tanonStruct 3, rem, h⟩
  else if k = 4 then .ok ⟨.tanonStruct 4, rem, h⟩
  else if k = 5 then .ok ⟨.tanonStruct 5, rem, h⟩
  else if k = 6 then .ok ⟨.tanonStruct 6, rem, h⟩
  else if k = 7 then .ok ⟨.tanonStruct 7, rem, h⟩
  else if k = 8 then .ok ⟨.tanonStruct 8, rem, h⟩
  else if k = 9 then .ok ⟨.tanonStruct 9, rem, h⟩
  else if k = 10 then .ok ⟨.tanonStruct 10, rem, h⟩
  else if k = 11 then .ok ⟨.tanonStruct 11, rem, h⟩
  else if k = 12 then .ok ⟨.tanonStruct 12, rem, h⟩
  else if k = 13 then .ok ⟨.tanonStruct 13, rem, h⟩
  else if k = 14 then .ok ⟨.tanonStruct 14, rem, h⟩
  else if k = 15 then .ok ⟨.tanonStruct 15, rem, h⟩
  else if k = 16 then .ok ⟨.tanonStruct 16, rem, h⟩
  else .error (.tooManyFields [])

mutual

/-- `dbusTypeFor(sig)` of the source: resolve one top-level type from the
front of the signature, returning the `reflect.Type` and the remainder.
The Go `switch sig[0]` is rendered as an `if` chain on the head character. -/
def dbusTypeFor : (sig : List Char) → Except TErr (TypeOk sig.length)
  | [] => .error (.empty [])
  | c :: cs =>
    if c = 'y' then .ok ⟨.tbyte, cs, Nat.lt_succ_self cs.length⟩
    else if c = 'b' then .ok ⟨.tbool, cs, Nat.lt_succ_self cs.length⟩
    else if c = 'n' then .ok ⟨.tint16, cs, Nat.lt_succ_self cs.length⟩
    else if c = 'q' then .ok ⟨.tuint16, cs, Nat.lt_succ_self cs.length⟩
    else if c = 'i' then .ok ⟨.tint32, cs, Nat.lt_succ_self cs.length⟩
    else if c = 'u' then .ok ⟨.tuint32, cs, Nat.lt_succ_self cs.length⟩
    else if c = 'x' then .ok ⟨.tint64, cs, Nat.lt_succ_self cs.length⟩
    else if c = 't' then .ok ⟨.tuint64, cs, Nat.lt_succ_self cs.length⟩
    else if c = 'd' then .ok ⟨.tfloat64, cs, Nat.lt_succ_self cs.length⟩
    else if c = 's' then .ok ⟨.tstring, cs, Nat.lt_succ_self cs.length⟩
    else if c = 'g' then .ok ⟨.tsignature, cs, Nat.lt_succ_self cs.length⟩
    else if c = 'o' then .ok ⟨.tobjectPath, cs, Nat.lt_succ_self cs.length⟩
    else if c = 'v' then .ok ⟨.tvariant, cs, Nat.lt_succ_self cs.length⟩
    else if c = 'h' then .ok ⟨.tunixFD, cs, Nat.lt_succ_self cs.length⟩
    else if c = 'a' then
      if cs.head? = some '{' then
        match matchDelim (c :: cs) '{' '}' with
        | some i =>
          if 0 < i then
            let inner := ((c :: cs).drop 2).take (i - 2)
            if inner.length ≤ 1 then .error (.tooShortForDict inner)
            else
              match dbusTypeFor (inner.take 1) with
              | .error e => .error (.badDictKey (inner.take 1) e)
              | .ok kr =>
                match dbusTypeFor (inner.drop 1) with
                | .error e => .error (.badDictValue (inner.drop 1) e)
                | .ok vr =>
                  .ok ⟨.tmap kr.t vr.t, (c :: cs).drop (i + 1),
                    length_drop_lt_cons c cs i⟩
          else .error (.unmatchedBrace (c :: cs))
        | none => .error (.unmatchedBrace (c :: cs))
      else
        match dbusTypeFor cs with
        | .error e => .error e
        | .ok r => .ok ⟨.tslice r.t, r.rem, Nat.lt_succ_of_lt r.hlt⟩
    else if c = '(' then
      match matchDelim (c :: cs) '(' ')' with
      | some i =>
        if 0 < i then
          let inner := ((c :: cs).drop 1).take (i - 1)
          if inner = [] then .error (.emptyStructure inner)
          else
            match dbusStructFields inner with
            | .error e => .error e
            | .ok ts => structFromArity ts.length ((c :: cs).drop (i + 1))
                (length_drop_lt_cons c cs i)
        else .error (.unmatchedParen (c :: cs))
      | none => .error (.unmatchedParen (c :: cs))
    else .error (.unknownTypeChar (c :: cs))
termination_by sig => 2 * sig.length

/-- The field-extraction loop of the structure case of `dbusTypeFor`:
`for len(sig) != 0 { t, sig, err = dbusTypeFor(sig); ... }`. -/
def dbusStructFields : (sig : List Char) → Except TErr (List RType)
  | [] => .ok []
  | c :: cs =>
    match dbusTypeFor (c :: cs) with
    | .error e => .error e
    | .ok r =>
      match dbusStructFields r.rem with
      | .error e => .error e
      | .ok ts => .ok (r.t :: ts)
termination_by sig => 2 * sig.length + 1
decreasing_by
all_goals simp_wf
all_goals (have h := r.hlt; simp only [List.length_cons] at h ⊢; omega)

end

/-- The dynamic (`interface{}`) values the converter manipulates, as a closed
universe: Go numeric kinds carry an integer payload (`float64` payloads are
modelled over ℤ; float rounding is not modelled, no claim depends on it),
string kinds carry their text, and containers carry their elements.
`vsignature`/`vobjectPath`/`vunixFD`/`vvariant` model the corresponding
`godbus` types. -/
inductive Value where
  | vbyte (n : Nat)
  | vbool (b : Bool)
  | vint16 (n : Int)
  | vuint16 (n : Nat)
  | vint32 (n : Int)
  | vuint32 (n : Nat)
  | vint64 (n : Int)
  | vuint64 (n : Nat)
  | vfloat64 (z : Int)
  | vstring (s : List Char)
  | vsignature (s : List Char)
  | vobjectPath (s : List Char)
  | vunixFD (n : Int)
  | vvariant (v : Value)
  | vslice (vs : List Value)
  | vmap (entries : List (Value × Value))
  | vstruct (fields : List Value)

/-- The `reflect.Kind` of a dynamic value (used by the `switch fromT.Kind()`
dispatches and interpolated into the "unexpected data" error messages). -/
inductive GoKind where
  | kByte | kBool | kInt16 | kUint16 | kInt32 | kUint32 | kInt64 | kUint64
  | kFloat64 | kString | kSignature | kObjectPath | kUnixFD | kVariant
  | kSlice | kMap | kStruct
deriving DecidableEq, Repr

def kindOf : Value → GoKind
  | .vbyte _ => .kByte
  | .vbool _ => .kBool
  | .vint16 _ => .kInt16
  | .vuint16 _ => .kUint16
  | .vint32 _ => .kInt32
  | .vuint32 _ => .kUint32
  | .vint64 _ => .kInt64
  | .vuint64 _ => .kUint64
  | .vfloat64 _ => .kFloat64
  | .vstring _ => .kString
  | .vsignature _ => .kSignature
  | .vobjectPath _ => .kObjectPath
  | .vunixFD _ => .kUnixFD
  | .vvariant _ => .kVariant
  | .vslice _ => .kSlice
  | .vmap _ => .kMap
  | .vstruct _ => .kStruct

/-- Errors of `convTo`/`dbusConv`, one constructor per `fmt.Errorf` site
(plus `typeErr`, the pass-through of a `dbusTypeFor` error). -/
inductive CErr where
  | typeErr (e : TErr)
  | emptySig (sig : List Char)
  | nestingTooDeep (sig : List Char)
  | unknownChar (sig : List Char)
  | notConvertible (arg : Value) (target : RType)
  | unexpectedMap (k : GoKind)
  | unexpectedArray (k : GoKind)
  | unexpectedStruct (k : GoKind)
  | fieldCountMismatch (got want : Nat) (sig : List Char)

/-- A Go run-time panic site reachable from the conversion code:
`args[i]` out of range in `DBusConv`, `Value.Field(i)` / `Value.Index(i)`
out of range in the structure loops, slicing an empty inner span, and
`NumField` on a non-struct type. -/
inductive GoPanicKind where
  | argIndex
  | fieldIndex (i : Nat)
  | sliceIndex (i : Nat)
  | sliceBounds
  | numFieldNonStruct
deriving DecidableEq, Repr

/-- How a conversion call can abort: by returning an error value, or by a
Go run-time panic (which propagates past every caller). -/
inductive GoStop where
  | err (e : CErr)
  | panicked (p : GoPanicKind)

/-- Integer payload of a value whose kind is an integer kind (while Go's
`reflect` also converts from floats, `float64` is kept separate because
integer-to-string conversion accepts only integer kinds). -/
def intPayload : Value → Option Int
  | .vbyte n => some n
  | .vint16 n => some n
  | .vuint16 n => some n
  | .vint32 n => some n
  | .vuint32 n => some n
  | .vint64 n => some n
  | .vuint64 n => some n
  | .vunixFD n => some n
  | _ => none

/-- Numeric payload: integer kinds plus `float64`. -/
def numPayload : Value → Option Int
  | .vfloat64 z => some z
  | v => intPayload v

/-- Wrap an integer into an unsigned width-`w` result (Go conversion
truncates to the target width). -/
def wrapU (w : Nat) (z : Int) : Nat := (z.emod (2 ^ w)).toNat

/-- Wrap an integer into a signed width-`w` result. -/
def wrapS (w : Nat) (z : Int) : Int := (z + 2 ^ (w - 1)).emod (2 ^ w) - 2 ^ (w - 1)

/-- Go integer-to-string conversion yields the rune; invalid code points
become the replacement character U+FFFD. -/
def runeOfInt (z : Int) : Char :=
  if 0 ≤ z ∧ (z < 55296 ∨ (57344 ≤ z ∧ z < 1114112)) then Char.ofNat z.toNat
  else Char.ofNat 65533

/-- `convTo(arg, to)` of the source: `reflect.ValueOf(arg).Convert(to)` when
`ConvertibleTo` holds, the "%T:%v is not convertible to %v" error otherwise.
Go reflect conversion is modelled on the `Value` universe: numeric kinds are
mutually convertible (wrapping at the target width), string-kinded values
convert among `string`/`ObjectPath`, integer kinds convert to string kinds
(rune conversion), `bool`/`Signature`/`Variant` convert only to themselves.
Container targets never reach `convTo` (it is called on basic signature
codes only) and are modelled as not convertible. -/
def convTo (arg : Value) (target : RType) : Except CErr Value :=
  match target with
  | .tbyte =>
    match numPayload arg with
    | some z => .ok (.vbyte (wrapU 8 z))
    | none => .error (.notConvertible arg target)
  | .tbool =>
    match arg with
    | .vbool b => .ok (.vbool b)
    | _ => .error (.notConvertible arg target)
  | .tint16 =>
    match numPayload arg with
    | some z => .ok (.vint16 (wrapS 16 z))
    | none => .error (.notConvertible arg target)
  | .tuint16 =>
    match numPayload arg with
    | some z => .ok (.vuint16 (wrapU 16 z))
    | none => .error (.notConvertible arg target)
  | .tint32 =>
    match numPayload arg with
    | some z => .ok (.vint32 (wrapS 32 z))
    | none => .error (.notConvertible arg target)
  | .tuint32 =>
    match numPayload arg with
    | some z => .ok (.vuint32 (wrapU 32 z))
    | none => .error (.notConvertible arg target)
  | .tint64 =>
    match numPayload arg with
    | some z => .ok (.vint64 (wrapS 64 z))
    | none => .error (.notConvertible arg target)
  | .tuint64 =>
    match numPayload arg with
    | some z => .ok (.vuint64 (wrapU 64 z))
    | none => .error (.notConvertible arg target)
  | .tfloat64 =>
    match numPayload arg with
    | some z => .ok (.vfloat64 z)
    | none => .error (.notConvertible arg target)
  | .tstring =>
    match arg with
    | .vstring s => .ok (.vstring s)
    | .vobjectPath s => .ok (.vstring s)
    | _ =>
      match intPayload arg with
      | some z => .ok (.vstring [runeOfInt z])
      | none => .error (.notConvertible arg target)
  | .tsignature =>
    match arg with
    | .vsignature s => .ok (.vsignature s)
    | _ => .error (.notConvertible arg target)
  | .tobjectPath =>
    match arg with
    | .vstring s => .ok (.vobjectPath s)
    | .vobjectPath s => .ok (.vobjectPath s)
    | _ =>
      match intPayload arg with
      | some z => .ok (.vobjectPath [runeOfInt z])
      | none => .error (.notConvertible arg target)
  | .tvariant =>
    match arg with
    | .vvariant v => .ok (.vvariant v)
    | _ => .error (.notConvertible arg target)
  | .tunixFD =>
    match numPayload arg with
    | some z => .ok (.vunixFD (wrapS 32 z))
    | none => .error (.notConvertible arg target)
  | _ => .error (.notConvertible arg target)

/-- A successful conversion step: converted value, remainder, consumption
invariant. -/
structure ConvOk (n : Nat) where
  v : Value
  rem : List Char
  hlt : rem.length < n

/-- The basic type codes of the first `case` of `dbusConv` (note `v` is
handled separately). -/
def isBasicCode (c : Char) : Bool :=
  c = 'y' ∨ c = 'b' ∨ c = 'n' ∨ c = 'q' ∨ c = 'i' ∨ c = 'u' ∨ c = 'x' ∨
  c = 't' ∨ c = 'd' ∨ c = 's' ∨ c = 'g' ∨ c = 'o' ∨ c = 'h'

mutual

/-- `dbusConv(sig, depth, arg)` of the source: convert one value against the
leading type of the signature.  The Go `switch sig[0]` is an `if` chain;
order of checks (empty signature, then depth guard, then dispatch) follows
the source.  In the structure case the source computes
`sig[1 : len(sig)-len(rem)]`, which drops the `(` but keeps the `)` of the
inner span; the loop below therefore runs one extra iteration and indexes
one field past the end (a Go panic) — the embedding reproduces this. -/
def dbusConv (sig : List Char) (depth : Nat) (arg : Value) :
    Except GoStop (ConvOk sig.length) :=
  match sig with
  | [] => .error (.err (.emptySig []))
  | c :: cs =>
    if 64 < depth then .error (.err (.nestingTooDeep (c :: cs)))
    else if isBasicCode c then
      match dbusTypeFor (c :: cs) with
      | .error e => .error (.err (.typeErr e))
      | .ok r =>
        match convTo arg r.t with
        | .error e => .error (.err e)
        | .ok v => .ok ⟨v, r.rem, r.hlt⟩
    else if c = 'v' then .ok ⟨.vvariant arg, cs, Nat.lt_succ_self cs.length⟩
    else if c = 'a' then
      if cs.head? = some '{' then
        match dbusTypeFor (c :: cs) with
        | .error e => .error (.err (.typeErr e))
        | .ok r =>
          match hin : ((c :: cs).drop 2).take ((c :: cs).length - r.rem.length - 3) with
          | [] => .error (.panicked .sliceBounds)
          | k :: vrest =>
            match arg with
            | .vmap entries =>
              match dbusConvMap [k] vrest depth entries with
              | .error st => .error st
              | .ok entries2 => .ok ⟨.vmap entries2, r.rem, r.hlt⟩
            | _ => .error (.err (.unexpectedMap (kindOf arg)))
      else
        match dbusTypeFor (c :: cs) with
        | .error e => .error (.err (.typeErr e))
        | .ok r =>
          match arg with
          | .vslice vs =>
            match dbusConvList (((c :: cs).drop 1).take ((c :: cs).length - r.rem.length - 1)) depth vs with
            | .error st => .error st
            | .ok vs2 => .ok ⟨.vslice vs2, r.rem, r.hlt⟩
          | _ => .error (.err (.unexpectedArray (kindOf arg)))
    else if c = '(' then
      match dbusTypeFor (c :: cs) with
      | .error e => .error (.err (.typeErr e))
      | .ok r =>
        match arg with
        | .vstruct fields =>
          match r.t with
          | .tanonStruct n =>
            if fields.length = n then
              match dbusConvStruct (((c :: cs).drop 1).take ((c :: cs).length - r.rem.length - 1)) depth fields 0 false with
              | .error st => .error st
              | .ok fs => .ok ⟨.vstruct fs, r.rem, r.hlt⟩
            else .error (.err (.fieldCountMismatch fields.length n
                (((c :: cs).drop 1).take ((c :: cs).length - r.rem.length - 1))))
          | _ => .error (.panicked .numFieldNonStruct)
        | .vslice vs =>
          match r.t with
          | .tanonStruct n =>
            if vs.length = n then
              match dbusConvStruct (((c :: cs).drop 1).take ((c :: cs).length - r.rem.length - 1)) depth vs 0 true with
              | .error st => .error st
              | .ok fs => .ok ⟨.vstruct fs, r.rem, r.hlt⟩
            else .error (.err (.fieldCountMismatch vs.length n
                (((c :: cs).drop 1).take ((c :: cs).length - r.rem.length - 1))))
          | _ => .error (.panicked .numFieldNonStruct)
        | _ => .error (.err (.unexpectedStruct (kindOf arg)))
    else .error (.err (.unknownChar (c :: cs)))
termination_by (2 * sig.length, 0)
decreasing_by
all_goals simp_wf
all_goals apply Prod.Lex.left
all_goals try omega
all_goals
  (have hl := congrArg List.length hin
   simp only [List.length_take, List.length_drop, List.length_cons] at hl
   omega)

/-- The element loop of the array case: convert each element of the slice
against the element signature at `depth+1`, first failure aborts. -/
def dbusConvList (esig : List Char) (depth : Nat) (vs : List Value) :
    Except GoStop (List Value) :=
  match vs with
  | [] => .ok []
  | v :: rest =>
    match dbusConv esig (depth + 1) v with
    | .error st => .error st
    | .ok r =>
      match dbusConvList esig depth rest with
      | .error st => .error st
      | .ok vs2 => .ok (r.v :: vs2)
termination_by (2 * esig.length + 1, vs.length)

/-- The entry loop of the map case: convert each key with the key signature
and each value with the value signature at `depth+1`, first failure aborts. -/
def dbusConvMap (ksig vsig : List Char) (depth : Nat)
    (entries : List (Value × Value)) : Except GoStop (List (Value × Value)) :=
  match entries with
  | [] => .ok []
  | (fk, fv) :: rest =>
    match dbusConv ksig (depth + 1) fk with
    | .error st => .error st
    | .ok kr =>
      match dbusConv vsig (depth + 1) fv with
      | .error st => .error st
      | .ok vr =>
        match dbusConvMap ksig vsig depth rest with
        | .error st => .error st
        | .ok es => .ok ((kr.v, vr.v) :: es)
termination_by (2 * (ksig.length + vsig.length) + 1, entries.length)

/-- The field loop of the structure case:
`for i := 0; len(sig) != 0; i++ { ...Field(i)/Index(i)... }`.  The loop is
driven by the remaining inner signature (which retains the trailing `)`),
and `vals[i]` out of range is the corresponding Go panic (`fieldIndex` for
a struct source, `sliceIndex` for a slice source). -/
def dbusConvStruct (sig : List Char) (depth : Nat) (vals : List Value)
    (i : Nat) (fromSlice : Bool) : Except GoStop (List Value) :=
  match sig with
  | [] => .ok []
  | c :: cs =>
    match vals[i]? with
    | none => .error (.panicked (if fromSlice then .sliceIndex i else .fieldIndex i))
    | some v =>
      match dbusConv (c :: cs) (depth + 1) v with
      | .error st => .error st
      | .ok r =>
        match dbusConvStruct r.rem depth vals (i + 1) fromSlice with
        | .error st => .error st
        | .ok fs => .ok (r.v :: fs)
termination_by (2 * sig.length + 1, 0)
decreasing_by
all_goals simp_wf
all_goals apply Prod.Lex.left
all_goals try omega
all_goals
  (have h := r.hlt
   simp only [List.length_cons] at h
   omega)

end

/-- The loop of `DBusConv`:
`for i := 0; err == nil && len(s) != 0; i++ { r, s, err = dbusConv(s, 0, args[i]); ... }`.
When the signature still has top-level types but `i` has reached the end of
`args`, the Go expression `args[i]` panics with an index-out-of-range
(bounds) error. -/
def DBusConvGo (args : List Value) : (s : List Char) → Nat → Except GoStop (List Value)
  | [], _ => .ok []
  | c :: cs, i =>
    match args[i]? with
    | none => .error (.panicked .argIndex)
    | some a =>
      match dbusConv (c :: cs) 0 a with
      | .error st => .error st
      | .ok r =>
        match DBusConvGo args r.rem (i + 1) with
        | .error st => .error st
        | .ok rest => .ok (r.v :: rest)
termination_by s => s.length
decreasing_by
have h := r.hlt
simp only [List.length_cons] at h ⊢
omega

/-- `DBusConv(signature, args...)` of the source (the signature string of the
`dbus.Signature` argument is the character list). -/
def DBusConv (sig : List Char) (args : List Value) : Except GoStop (List Value) :=
  DBusConvGo args sig 0

/-- Modelled from the spec: the conversion entry point
`convertAll(signature, values...)` "walks the full top-level signature
consuming one value per top-level type in order; if fewer values are
supplied than top-level types, result is a bounds error", returning the
converted values in order or the first conversion error.  Defined for the
refinement claim about `DBusConv`. -/
def convertAllSpec : (s : List Char) → List Value → Except GoStop (List Value)
  | [], _ => .ok []
  | _ :: _, [] => .error (.panicked .argIndex)
  | c :: cs, a :: rest =>
    match dbusConv (c :: cs) 0 a with
    | .error st => .error st
    | .ok r =>
      match convertAllSpec r.rem rest with
      | .error st => .error st
      | .ok vs => .ok (r.v :: vs)
termination_by s _ => s.length
decreasing_by
have h := r.hlt
simp only [List.length_cons] at h ⊢
omega

/-! ## Connection lifecycle manager

`dbusConn` of the source holds the underlying `*dbus.Conn` (abstract handle
ids here, `none` = Go `nil`), the `exclusive` flag and the `matchRules` set
(a Go `map[string]bool`, modelled as a duplicate-free list; `Open` never
touches it and `NewDBusConn` creates it empty).  The `Signals` channel and
`WatchSignals` are concurrency plumbing no claim touches and are omitted.
All outcomes of the underlying `godbus` library are an explicit environment
`BusEnv`; following the Go convention (and `godbus`), a constructor that
returns an error returns a `nil` connection, so `dial`/`sysBus`/`sesBus`
yield `Except` (error or handle, never both). -/

/-- Abstract id of an underlying `*dbus.Conn`. -/
abbrev Handle := Nat

/-- The D-Bus connection helper state (`dbusConn` of the source). -/
structure dbusConn where
  dbus : Option Handle
  exclusive : Bool
  matchRules : List String
deriving DecidableEq, Repr

/-- `NewDBusConn()`: zero value with an empty match-rule set. -/
def NewDBusConn : dbusConn := ⟨none, false, []⟩

/-- `IsOpen()`: the connection is open iff the stored handle is non-nil. -/
def IsOpen (conn : dbusConn) : Bool := conn.dbus.isSome

/-- A call made to the underlying bus library. -/
inductive BusOp where
  | sysBusCall
  | sesBusCall
  | dialCall (address : String)
  | authCall (h : Handle)
  | helloCall (h : Handle)
  | closeCall (h : Handle)
  | addMatchCall (rule : String)
  | removeMatchCall (rule : String)
deriving DecidableEq, Repr

/-- Outcomes of the underlying bus library (`godbus`): bus constructors
either fail or produce a handle; `Auth`, `Hello`, `Close` and the
`AddMatch`/`RemoveMatch` bus calls either succeed (`none`) or fail with an
error (`some e`). -/
structure BusEnv where
  sysBus : Except String Handle
  sesBus : Except String Handle
  dial : String → Except String Handle
  auth : Handle → Option String
  hello : Handle → Option String
  closeRes : Handle → Option String
  addMatch : String → Option String
  removeMatch : String → Option String

/-- Result of a lifecycle operation: the new connection state, the returned
`err`, and the calls issued to the underlying library, in order. -/
structure OpResult where
  conn : dbusConn
  err : Option String
  trace : List BusOp
deriving DecidableEq, Repr

/-- `strings.ToLower` (ASCII; the recognized addresses are ASCII). -/
def strToLower (a : String) : String := String.mk (a.data.map Char.toLower)

/-- `Open(address)` of the source: `switch strings.ToLower(address)`;
`system`/`@system` and `session`/`@session` select the shared buses with
`exclusive = false`; any other address dials, then authenticates, then
sends the hello, with `exclusive = true`; an `Auth` or `Hello` failure
closes the freshly dialed handle and resets the stored handle to `nil`. -/
def Open (env : BusEnv) (conn : dbusConn) (address : String) : OpResult :=
  if strToLower address = "@system" ∨ strToLower address = "system" then
    match env.sysBus with
    | .ok h => ⟨{ conn with dbus := some h, exclusive := false }, none, [.sysBusCall]⟩
    | .error e => ⟨{ conn with dbus := none, exclusive := false }, some e, [.sysBusCall]⟩
  else if strToLower address = "@session" ∨ strToLower address = "session" then
    match env.sesBus with
    | .ok h => ⟨{ conn with dbus := some h, exclusive := false }, none, [.sesBusCall]⟩
    | .error e => ⟨{ conn with dbus := none, exclusive := false }, some e, [.sesBusCall]⟩
  else
    match env.dial address with
    | .error e => ⟨{ conn with dbus := none, exclusive := true }, some e, [.dialCall address]⟩
    | .ok h =>
      match env.auth h with
      | some e =>
        ⟨{ conn with dbus := none, exclusive := true }, some e,
          [.dialCall address, .authCall h, .closeCall h]⟩
      | none =>
        match env.hello h with
        | some e =>
          ⟨{ conn with dbus := none, exclusive := true }, some e,
            [.dialCall address, .authCall h, .helloCall h, .closeCall h]⟩
        | none =>
          ⟨{ conn with dbus := some h, exclusive := true }, none,
            [.dialCall address, .authCall h, .helloCall h]⟩

/-- `Close()` of the source: a no-op on an already-closed connection; on an
open connection the underlying handle is closed only when `exclusive`, and
the stored handle is always reset to `nil` (local match-rule bookkeeping is
not touched). -/
def Close (env : BusEnv) (conn : dbusConn) : OpResult :=
  match conn.dbus with
  | some h =>
    if conn.exclusive then
      ⟨{ conn with dbus := none }, env.closeRes h, [.closeCall h]⟩
    else
      ⟨{ conn with dbus := none }, none, []⟩
  | none => ⟨conn, none, []⟩

/-- `InsertMatchRule(rule)` of the source: only when the connection is open
and the rule is not yet recorded, issue the bus `AddMatch` call and record
the rule on success; otherwise a silent no-op success. -/
def InsertMatchRule (env : BusEnv) (conn : dbusConn) (rule : String) : OpResult :=
  match conn.dbus with
  | some _ =>
    if rule ∈ conn.matchRules then ⟨conn, none, []⟩
    else
      match env.addMatch rule with
      | none =>
        ⟨{ conn with matchRules := conn.matchRules ++ [rule] }, none, [.addMatchCall rule]⟩
      | some e => ⟨conn, some e, [.addMatchCall rule]⟩
  | none => ⟨conn, none, []⟩

/-- `RemoveMatchRule(rule)` of the source: only when the connection is open
and the rule is recorded, issue the bus `RemoveMatch` call and delete the
rule on success; otherwise a silent no-op success. -/
def RemoveMatchRule (env : BusEnv) (conn : dbusConn) (rule : String) : OpResult :=
  match conn.dbus with
  | some _ =>
    if rule ∈ conn.matchRules then
      match env.removeMatch rule with
      | none =>
        ⟨{ conn with matchRules := conn.matchRules.filter (fun r => r ≠ rule) }, none,
          [.removeMatchCall rule]⟩
      | some e => ⟨conn, some e, [.removeMatchCall rule]⟩
    else ⟨conn, none, []⟩
  | none => ⟨conn, none, []⟩

/-- The iteration of `RemoveAllMatchRules` over the recorded rules (Go
ranges over the `matchRules` map; the embedding iterates the snapshot list —
each iteration deletes at most the rule it just visited, so the visited
collection is exactly the recorded set).  `err` is overwritten on every
iteration, as in the source; in non-forced mode the loop breaks at the
first failing removal. -/
def removeAllLoop (env : BusEnv) (force : Bool) :
    List String → dbusConn → Option String → List BusOp → dbusConn × Option String × List BusOp
  | [], conn, err, trace => (conn, err, trace)
  | r :: rs, conn, _, trace =>
    let res := RemoveMatchRule env conn r
    if res.err ≠ none ∧ force = false then (res.conn, res.err, trace ++ res.trace)
    else removeAllLoop env force rs res.conn res.err (trace ++ res.trace)

/-- `RemoveAllMatchRules(force)` of the source: iterate the recorded rules,
stopping at the first failure unless `force`; in forced mode the local set
is cleared unconditionally afterwards. -/
def RemoveAllMatchRules (env : BusEnv) (conn : dbusConn) (force : Bool) : OpResult :=
  let out := removeAllLoop env force conn.matchRules conn none []
  if force then ⟨{ out.1 with matchRules := [] }, out.2.1, out.2.2⟩
  else ⟨out.1, out.2.1, out.2.2⟩

/-! ## Valid signatures and shape re-serialization (for the round-trip claim)

The spec's round-trip property needs a notion of *valid signature* (its
grammar, section 6: scalar codes, `a`+element, `a{`+key-code+value-sig+`}`,
`(`+fields+`)`) and a *shape re-serializer*, neither of which exists in the
source.  `SigSF` below is the structure-free fragment of that grammar (the
amended claim is restricted to it; the counterexample shows why structures
cannot round-trip). -/

/-- The 14 one-character type codes of the signature grammar. -/
inductive ScalarCode where
  | y | b | n | q | i | u | x | t | d | s | g | o | v | h
deriving DecidableEq, Repr

def codeChar : ScalarCode → Char
  | .y => 'y'
  | .b => 'b'
  | .n => 'n'
  | .q => 'q'
  | .i => 'i'
  | .u => 'u'
  | .x => 'x'
  | .t => 't'
  | .d => 'd'
  | .s => 's'
  | .g => 'g'
  | .o => 'o'
  | .v => 'v'
  | .h => 'h'

/-- The fixed scalar kind table of the resolver. -/
def scalarRType : ScalarCode → RType
  | .y => .tbyte
  | .b => .tbool
  | .n => .tint16
  | .q => .tuint16
  | .i => .tint32
  | .u => .tuint32
  | .x => .tint64
  | .t => .tuint64
  | .d => .tfloat64
  | .s => .tstring
  | .g => .tsignature
  | .o => .tobjectPath
  | .v => .tvariant
  | .h => .tunixFD

/-- Modelled from the spec: the valid-signature grammar of section 6,
restricted to its structure-free fragment (scalar codes, arrays, dicts with
a one-code key and a single complete value type). -/
inductive SigSF where
  | scalar (c : ScalarCode)
  | array (elem : SigSF)
  | dict (key : ScalarCode) (val : SigSF)

/-- The signature string of a grammar term. -/
def SigSF.toStr : SigSF → List Char
  | .scalar c => [codeChar c]
  | .array e => 'a' :: e.toStr
  | .dict k v => 'a' :: '{' :: codeChar k :: (v.toStr ++ ['}'])

/-- The resolved type a grammar term denotes. -/
def SigSF.rtypeOf : SigSF → RType
  | .scalar c => scalarRType c
  | .array e => .tslice e.rtypeOf
  | .dict k v => .tmap (scalarRType k) v.rtypeOf

/-- Modelled from the spec: "re-serializing the ResolvedType's shape back to
a signature string".  A `tanonStruct` retains only its field count (the
source discards the field types), so no serialization can recover the
fields; it is mapped to `[]` here, and the round-trip theorem is restricted
to structure-free signatures accordingly. -/
def serializeShape : RType → List Char
  | .tbyte => ['y']
  | .tbool => ['b']
  | .tint16 => ['n']
  | .tuint16 => ['q']
  | .tint32 => ['i']
  | .tuint32 => ['u']
  | .tint64 => ['x']
  | .tuint64 => ['t']
  | .tfloat64 => ['d']
  | .tstring => ['s']
  | .tsignature => ['g']
  | .tobjectPath => ['o']
  | .tvariant => ['v']
  | .tunixFD => ['h']
  | .tslice e => 'a' :: serializeShape e
  | .tmap k v => 'a' :: '{' :: (serializeShape k ++ serializeShape v ++ ['}'])
  | .tanonStruct _ => []

/-! ## Theorems -/

/-- C2: for every non-empty signature and every input value, `dbusConv`
invoked at recursion depth greater than 64 returns the "nesting too deep"
error; the check precedes the dispatch on the value, so the result does not
depend on the argument at all. -/
theorem C2_depth_guard (sig : List Char) (depth : Nat) (arg : Value)
    (hne : sig ≠ []) (hdepth : 64 < depth) :
    dbusConv sig depth arg = .error (.err (.nestingTooDeep sig)) := by
  match sig, hne with
  | c :: cs, _ => simp [dbusConv, hdepth]

/-- C2, witness: converting against `"i"` at depth 65 fails with the
nesting-too-deep error. -/
theorem C2_depth_guard_witness :
    (['i'] : List Char) ≠ [] ∧ 64 < 65 ∧
      dbusConv ['i'] 65 (.vint32 5) = .error (.err (.nestingTooDeep ['i'])) :=
  ⟨by decide, by decide, C2_depth_guard ['i'] 65 (.vint32 5) (by decide) (by decide)⟩

theorem DBusConvGo_eq_convertAllSpec (args : List Value) :
    ∀ (n : Nat) (s : List Char), s.length ≤ n → ∀ (i : Nat),
      DBusConvGo args s i = convertAllSpec s (args.drop i) := by
  intro n
  induction n with
  | zero =>
    intro s hs i
    have hnil : s = [] := List.eq_nil_of_length_eq_zero (Nat.le_zero.mp hs)
    subst hnil
    simp [DBusConvGo, convertAllSpec]
  | succ n ih =>
    intro s hs i
    match s with
    | [] => simp [DBusConvGo, convertAllSpec]
    | c :: cs =>
      cases hd : args.drop i with
      | nil =>
        have hnone : args[i]? = none := by rw [← List.head?_drop, hd]; rfl
        simp only [DBusConvGo, convertAllSpec, hnone]
      | cons a rest =>
        have hsome : args[i]? = some a := by rw [← List.head?_drop, hd]; rfl
        have hrest : args.drop (i + 1) = rest := by rw [← List.tail_drop, hd]; rfl
        cases hc : dbusConv (c :: cs) 0 a with
        | error st => simp only [DBusConvGo, convertAllSpec, hsome, hc]
        | ok r =>
          have hlen : r.rem.length ≤ n := by
            have h := r.hlt
            simp only [List.length_cons] at h hs
            omega
          have hrec := ih r.rem hlen (i + 1)
          rw [hrest] at hrec
          simp only [DBusConvGo, convertAllSpec, hsome, hc, hrec]

/-- C1: `DBusConv` walks the full top-level signature left to right,
consuming exactly one supplied argument per top-level type in order and
returning the converted values in that order, or the first conversion
error; when the signature's top-level type count exceeds the supplied
argument count, the walk ends in the bounds error (the Go `args[i]`
index-out-of-range panic).  Formally, `DBusConv` equals the spec-worded
walker `convertAllSpec` on all inputs. -/
theorem C1_DBusConv_refines_convertAll (sig : List Char) (args : List Value) :
    DBusConv sig args = convertAllSpec sig args := by
  have h := DBusConvGo_eq_convertAllSpec args sig.length sig (Nat.le_refl _) 0
  simpa [DBusConv] using h

theorem structFromArity_ok (k : Nat) {n : Nat} (rem : List Char) (h : rem.length < n)
    (h1 : 1 ≤ k) (h16 : k ≤ 16) :
    structFromArity k rem h = .ok ⟨.tanonStruct k, rem, h⟩ := by
  interval_cases k <;> simp [structFromArity]

theorem structFromArity_over (k : Nat) {n : Nat} (rem : List Char) (h : rem.length < n)
    (h16 : 16 < k) : structFromArity k rem h = .error (.tooManyFields []) := by
  unfold structFromArity
  repeat rw [if_neg (by omega)]

/-- C3: on a structure signature `(...)` (head `(`, matching `)` at index
`i`), the resolver resolves the inner span field by field
(`dbusStructFields`) until it is exhausted; an empty inner span is the
"empty structure" error, 1..16 resolved fields yield the fixed-arity record
type with exactly that many fields (with the remainder after the `)`), and
more than 16 fields is the "too many fields" error. -/
theorem C3_struct_arity (body : List Char) (i : Nat)
    (hm : matchDelim ('(' :: body) '(' ')' = some i) (hi : 0 < i) :
    (body.take (i - 1) = [] →
        dbusTypeFor ('(' :: body) = .error (.emptyStructure [])) ∧
    (∀ ts, dbusStructFields (body.take (i - 1)) = .ok ts →
      (1 ≤ ts.length → ts.length ≤ 16 →
        dbusTypeFor ('(' :: body) =
          .ok ⟨.tanonStruct ts.length, ('(' :: body).drop (i + 1),
            length_drop_lt_cons '(' body i⟩) ∧
      (16 < ts.length →
        dbusTypeFor ('(' :: body) = .error (.tooManyFields []))) := by
  constructor
  · intro hinner
    simp [dbusTypeFor, hm, hi, List.drop_one, hinner]
  · intro ts hts
    have hcases :
        dbusTypeFor ('(' :: body) =
          structFromArity ts.length (('(' :: body).drop (i + 1))
            (length_drop_lt_cons '(' body i) ∨
        (ts = [] ∧ body.take (i - 1) = []) := by
      by_cases hne : body.take (i - 1) = []
      · right
        rw [hne] at hts
        simp [dbusStructFields] at hts
        exact ⟨hts, hne⟩
      · left
        simp [dbusTypeFor, hm, hi, List.drop_one, hne, hts]
    constructor
    · intro h1 h16
      rcases hcases with hc | ⟨hnil, _⟩
      · rw [hc]
        exact structFromArity_ok ts.length _ _ h1 h16
      · rw [hnil] at h1
        simp at h1
    · intro h16
      rcases hcases with hc | ⟨hnil, _⟩
      · rw [hc]
        exact structFromArity_over ts.length _ _ h16
      · rw [hnil] at h16
        simp at h16

/-- C3, witness: `"(ii)"` resolves to the 2-field record type with empty
remainder. -/
theorem C3_struct_arity_witness :
    dbusTypeFor ['(', 'i', 'i', ')'] = .ok ⟨.tanonStruct 2, [], by decide⟩ := by
  have h := ((C3_struct_arity ['i', 'i', ')'] 3 (by decide) (by decide)).2
    [.tint32, .tint32] (by simp [dbusStructFields, dbusTypeFor])).1
    (by decide) (by decide)
  simpa using h

theorem toStr_length_pos (s : SigSF) : 0 < s.toStr.length := by
  cases s <;> simp [SigSF.toStr]

theorem toStr_ne_nil (s : SigSF) : s.toStr ≠ [] := by
  cases s <;> simp [SigSF.toStr]

theorem codeChar_ne_lbrace (c : ScalarCode) : codeChar c ≠ '{' := by
  cases c <;> decide

theorem codeChar_ne_rbrace (c : ScalarCode) : codeChar c ≠ '}' := by
  cases c <;> decide

theorem toStr_head_ne_lbrace (s : SigSF) : ¬ s.toStr.head? = some '{' := by
  cases s with
  | scalar c => cases c <;> simp [SigSF.toStr, codeChar]
  | array e => simp [SigSF.toStr]
  | dict k v => simp [SigSF.toStr]

theorem dbusTypeFor_code (c : ScalarCode) (rest : List Char) :
    dbusTypeFor (codeChar c :: rest) =
      .ok ⟨scalarRType c, rest, Nat.lt_succ_self rest.length⟩ := by
  cases c <;> simp [codeChar, scalarRType, dbusTypeFor]

theorem matchFrom_cons_other {left right c : Char} (hcl : c ≠ left)
    (hcr : c ≠ right) (cs : List Char) (i : Nat) (n : Int) :
    matchFrom left right (c :: cs) i n = matchFrom left right cs (i + 1) n := by
  simp [matchFrom, hcl, hcr]

theorem matchFrom_cons_left {left right : Char} (cs : List Char) (i : Nat) (n : Int) :
    matchFrom left right (left :: cs) i n = matchFrom left right cs (i + 1) (n + 1) := by
  simp [matchFrom]

theorem matchFrom_cons_right_stop {left right : Char} (hrl : right ≠ left)
    (cs : List Char) (i : Nat) {n : Int} (hn : n - 1 = 0) :
    matchFrom left right (right :: cs) i n = some i := by
  simp [matchFrom, hrl, hn]

theorem matchFrom_cons_right_go {left right : Char} (hrl : right ≠ left)
    (cs : List Char) (i : Nat) {n : Int} (hn : ¬ n - 1 = 0) :
    matchFrom left right (right :: cs) i n = matchFrom left right cs (i + 1) (n - 1) := by
  simp [matchFrom, hrl, hn]

/-- Scanning the text of a grammar term from brace depth `n ≥ 1` neither
returns nor changes the depth: its braces are balanced and nested. -/
theorem matchFrom_toStr_append (s : SigSF) :
    ∀ (t : List Char) (i : Nat) (n : Int), 1 ≤ n →
      matchFrom '{' '}' (s.toStr ++ t) i n
        = matchFrom '{' '}' t (i + s.toStr.length) n := by
  induction s with
  | scalar c =>
    intro t i n _
    cases c <;> simp [SigSF.toStr, codeChar, matchFrom]
  | array e ih =>
    intro t i n hn
    simp only [SigSF.toStr, List.cons_append]
    rw [matchFrom_cons_other (by decide) (by decide), ih t (i + 1) n hn]
    congr 1
    simp only [SigSF.toStr, List.length_cons]
    omega
  | dict k v ih =>
    intro t i n hn
    simp only [SigSF.toStr, List.cons_append, List.append_assoc,
      List.singleton_append, List.nil_append]
    rw [matchFrom_cons_other (by decide) (by decide)]
    rw [matchFrom_cons_left]
    rw [matchFrom_cons_other (codeChar_ne_lbrace k) (codeChar_ne_rbrace k)]
    rw [ih ('}' :: t) (i + 1 + 1 + 1) (n + 1) (by omega)]
    rw [matchFrom_cons_right_go (by decide) _ _ (by omega)]
    rw [show n + 1 - 1 = n from by omega]
    congr 1
    simp only [List.length_cons, List.length_append, List.length_singleton,
      List.length_nil]
    omega

/-- Transport of a resolver evaluation along an equality of signatures. -/
theorem dbusTypeFor_eq_of_eq {s1 s2 : List Char} (h : s1 = s2) (t : RType)
    (rem : List Char) (h2 : rem.length < s2.length)
    (heq : dbusTypeFor s2 = .ok ⟨t, rem, h2⟩) :
    ∃ h1 : rem.length < s1.length, dbusTypeFor s1 = .ok ⟨t, rem, h1⟩ := by
  subst h
  exact ⟨h2, heq⟩

/-- Resolution correctness on the structure-free grammar: resolving the text
of a grammar term (with any continuation) yields its denoted type with the
continuation as remainder. -/
theorem dbusTypeFor_toStr (s : SigSF) :
    ∀ (sig rest : List Char), sig = s.toStr ++ rest →
      ∃ h : rest.length < sig.length,
        dbusTypeFor sig = .ok ⟨s.rtypeOf, rest, h⟩ := by
  induction s with
  | scalar c =>
    intro sig rest hsig
    subst hsig
    exact ⟨by simp [SigSF.toStr], by
      simp [SigSF.toStr, SigSF.rtypeOf, dbusTypeFor_code c rest]⟩
  | array e ih =>
    intro sig rest hsig
    subst hsig
    obtain ⟨h, heq⟩ := ih (e.toStr ++ rest) rest rfl
    refine ⟨by simp [SigSF.toStr]; omega, ?_⟩
    simp only [SigSF.toStr, List.cons_append]
    simp [dbusTypeFor, toStr_head_ne_lbrace e, toStr_ne_nil e, heq, SigSF.rtypeOf]
  | dict k v ih =>
    intro sig rest hsig
    have hsig' : sig = 'a' :: '{' :: codeChar k :: (v.toStr ++ '}' :: rest) := by
      rw [hsig]; simp [SigSF.toStr]
    subst hsig'
    obtain ⟨hv, hveq⟩ := ih v.toStr [] (by simp)
    have hvp := toStr_length_pos v
    have hmd : matchDelim ('a' :: '{' :: codeChar k :: (v.toStr ++ '}' :: rest)) '{' '}'
        = some (3 + v.toStr.length) := by
      rw [matchDelim]
      rw [matchFrom_cons_other (by decide) (by decide)]
      rw [matchFrom_cons_left]
      rw [matchFrom_cons_other (codeChar_ne_lbrace k) (codeChar_ne_rbrace k)]
      rw [matchFrom_toStr_append v ('}' :: rest) (0 + 1 + 1 + 1) (0 + 1) (by omega)]
      rw [matchFrom_cons_right_stop (by decide) _ _ (by decide)]
    have hpos : 0 < 3 + v.toStr.length := by omega
    have htake : List.take (3 + v.toStr.length - 2)
        (codeChar k :: (v.toStr ++ '}' :: rest)) = codeChar k :: v.toStr := by
      rw [show 3 + v.toStr.length - 2 = v.toStr.length + 1 from by omega]
      rw [List.take_succ_cons]
      congr 1
      exact List.take_left v.toStr ('}' :: rest)
    have hlen : ¬ ((codeChar k :: v.toStr).length ≤ 1) := by
      simp only [List.length_cons]
      omega
    have hdropfin : List.drop (3 + v.toStr.length + 1)
        ('a' :: '{' :: codeChar k :: (v.toStr ++ '}' :: rest)) = rest := by
      rw [show 3 + v.toStr.length + 1 = v.toStr.length + 1 + 1 + 1 + 1 from by omega]
      rw [List.drop_succ_cons, List.drop_succ_cons, List.drop_succ_cons]
      rw [List.drop_append 1]
      rfl
    have hk1 : List.take 1 (List.take (3 + v.toStr.length - 2)
        (codeChar k :: (v.toStr ++ '}' :: rest))) = [codeChar k] := by
      rw [htake]; rfl
    have hv1 : List.drop 1 (List.take (3 + v.toStr.length - 2)
        (codeChar k :: (v.toStr ++ '}' :: rest))) = v.toStr := by
      rw [htake]; rfl
    refine ⟨by simp [List.length_append]; omega, ?_⟩
    simp [dbusTypeFor, hmd, hpos, htake, hlen, hdropfin, SigSF.rtypeOf,
      toStr_ne_nil v]
    obtain ⟨pfk, hks⟩ := dbusTypeFor_eq_of_eq hk1 (scalarRType k) []
      (Nat.lt_succ_self _) (dbusTypeFor_code k [])
    obtain ⟨pfv, hvs⟩ := dbusTypeFor_eq_of_eq hv1 v.rtypeOf [] hv hveq
    rw [hks, hvs]

theorem serializeShape_rtypeOf (s : SigSF) : serializeShape s.rtypeOf = s.toStr := by
  induction s with
  | scalar c => cases c <;> rfl
  | array e ih => simp [SigSF.rtypeOf, SigSF.toStr, serializeShape, ih]
  | dict k v ih =>
    cases k <;> simp [SigSF.rtypeOf, SigSF.toStr, serializeShape, ih, codeChar,
      scalarRType]

/-- C4, counterexample: resolve-then-reserialize cannot reproduce every
valid signature: the resolver maps the two distinct fully-consumed valid
signatures `"(ii)"` and `"(ss)"` to the same resolved type (the structure
representation keeps only the field count, discarding the field types), so
no shape serialization is a right inverse of resolution. -/
theorem C4_roundtrip_counterexample :
    ¬ ∃ ser : RType → List Char,
        ∀ (sig : List Char) (r : TypeOk sig.length),
          dbusTypeFor sig = .ok r → r.rem = [] → ser r.t = sig := by
  rintro ⟨ser, hser⟩
  have e1 : dbusTypeFor ['(', 'i', 'i', ')'] =
      .ok ⟨.tanonStruct 2, [], by decide⟩ := by
    simp [dbusTypeFor, dbusStructFields, matchDelim, matchFrom, structFromArity]
  have e2 : dbusTypeFor ['(', 's', 's', ')'] =
      .ok ⟨.tanonStruct 2, [], by decide⟩ := by
    simp [dbusTypeFor, dbusStructFields, matchDelim, matchFrom, structFromArity]
  have h1 := hser ['(', 'i', 'i', ')'] _ e1 rfl
  have h2 := hser ['(', 's', 's', ')'] _ e2 rfl
  rw [h1] at h2
  exact absurd h2 (by decide)

/-- C4 (amended): restricted to structure-free valid signatures, the
round-trip holds: resolving the signature consumes it exactly and yields the
denoted type, and re-serializing that type's shape reproduces the original
signature.  (Signatures containing structures cannot round-trip, since
resolution retains only the field count — see the counterexample.) -/
theorem C4_roundtrip_amended (s : SigSF) :
    ∃ h : ([] : List Char).length < s.toStr.length,
      dbusTypeFor s.toStr = .ok ⟨s.rtypeOf, [], h⟩ ∧
      serializeShape s.rtypeOf = s.toStr := by
  obtain ⟨h, heq⟩ := dbusTypeFor_toStr s s.toStr [] (by simp)
  exact ⟨h, heq, serializeShape_rtypeOf s⟩

/-- C5: `Open` classifies the address case-insensitively: `system`/`@system`
selects the shared system bus and `session`/`@session` the shared session
bus, both marked non-exclusive; any other string is a direct dial marked
exclusive, whose success path performs dial, then authentication, then the
hello call, in that order, before the connection is open. -/
theorem C5_open_classification (env : BusEnv) (conn : dbusConn) (address : String) :
    ((strToLower address = "@system" ∨ strToLower address = "system") →
      (Open env conn address).conn.exclusive = false ∧
      (Open env conn address).trace = [BusOp.sysBusCall] ∧
      ∀ h, env.sysBus = .ok h →
        (Open env conn address).conn.dbus = some h ∧
        (Open env conn address).err = none) ∧
    ((strToLower address = "@session" ∨ strToLower address = "session") →
      (Open env conn address).conn.exclusive = false ∧
      (Open env conn address).trace = [BusOp.sesBusCall] ∧
      ∀ h, env.sesBus = .ok h →
        (Open env conn address).conn.dbus = some h ∧
        (Open env conn address).err = none) ∧
    (strToLower address ≠ "@system" → strToLower address ≠ "system" →
     strToLower address ≠ "@session" → strToLower address ≠ "session" →
      (Open env conn address).conn.exclusive = true ∧
      ((Open env conn address).err = none →
        ∃ h, env.dial address = .ok h ∧ env.auth h = none ∧ env.hello h = none ∧
          (Open env conn address).trace =
            [BusOp.dialCall address, BusOp.authCall h, BusOp.helloCall h] ∧
          (Open env conn address).conn.dbus = some h)) := by
  refine ⟨?_, ?_, ?_⟩
  · intro hsys
    simp only [Open]
    rw [if_pos hsys]
    cases hs : env.sysBus <;> simp [hs]
  · intro hses
    have hc1 : ¬ (strToLower address = "@system" ∨ strToLower address = "system") := by
      rcases hses with h | h <;> rw [h] <;> decide
    simp only [Open]
    rw [if_neg hc1, if_pos hses]
    cases hs : env.sesBus <;> simp [hs]
  · intro hna hnb hnc hnd
    have hc1 : ¬ (strToLower address = "@system" ∨ strToLower address = "system") := by
      rintro (h | h)
      exacts [hna h, hnb h]
    have hc2 : ¬ (strToLower address = "@session" ∨ strToLower address = "session") := by
      rintro (h | h)
      exacts [hnc h, hnd h]
    simp only [Open]
    rw [if_neg hc1, if_neg hc2]
    cases hd : env.dial address with
    | error e => simp [hd]
    | ok h =>
      cases ha : env.auth h with
      | some e => simp [hd, ha]
      | none =>
        cases hh : env.hello h with
        | some e => simp [hd, ha, hh]
        | none =>
          refine ⟨?_, fun _ => ⟨h, rfl, ha, hh, ?_, ?_⟩⟩ <;> simp [hd, ha, hh]

/-- C5, witness: `"SyStem"` (mixed case) selects the shared system bus
non-exclusively, and `"unix:path=/tmp/x"` dials exclusively with the
dial-auth-hello sequence. -/
theorem C5_open_classification_witness :
    (Open ⟨.ok 1, .ok 2, fun _ => .ok 7, fun _ => none, fun _ => none,
        fun _ => none, fun _ => none, fun _ => none⟩ NewDBusConn "SyStem").conn.exclusive
        = false ∧
    (Open ⟨.ok 1, .ok 2, fun _ => .ok 7, fun _ => none, fun _ => none,
        fun _ => none, fun _ => none, fun _ => none⟩ NewDBusConn
        "unix:path=/tmp/x").trace
      = [BusOp.dialCall "unix:path=/tmp/x", BusOp.authCall 7, BusOp.helloCall 7] := by
  constructor
  · exact ((C5_open_classification _ NewDBusConn "SyStem").1 (by decide)).1
  · have h := ((C5_open_classification
      ⟨.ok 1, .ok 2, fun _ => .ok 7, fun _ => none, fun _ => none,
        fun _ => none, fun _ => none, fun _ => none⟩
      NewDBusConn "unix:path=/tmp/x").2.2 (by decide) (by decide) (by decide)
      (by decide)).2 rfl
    obtain ⟨hh, hdial, -, -, htr, -⟩ := h
    have : hh = 7 := by
      have := hdial.symm
      simpa using this
    rw [this] at htr
    exact htr

/-- C6: whenever `Open` returns an error, the connection ends closed
(`IsOpen` is false, the stored handle is reset to nil); on the exclusive
path, a handle that was successfully dialed before the failure is released
(its close call is in the trace). -/
theorem C6_open_rollback (env : BusEnv) (conn : dbusConn) (address : String)
    (e : String) (herr : (Open env conn address).err = some e) :
    IsOpen (Open env conn address).conn = false ∧
    ∀ hh : Handle, strToLower address ≠ "@system" → strToLower address ≠ "system" →
      strToLower address ≠ "@session" → strToLower address ≠ "session" →
      env.dial address = .ok hh →
      BusOp.closeCall hh ∈ (Open env conn address).trace := by
  simp only [Open] at herr ⊢
  by_cases hc1 : strToLower address = "@system" ∨ strToLower address = "system"
  · rw [if_pos hc1] at herr ⊢
    cases hs : env.sysBus with
    | ok h => simp [hs] at herr
    | error e2 =>
      refine ⟨by simp [IsOpen, hs], ?_⟩
      intro hh hna hnb _ _ _
      rcases hc1 with h | h
      exacts [absurd h hna, absurd h hnb]
  · rw [if_neg hc1] at herr ⊢
    by_cases hc2 : strToLower address = "@session" ∨ strToLower address = "session"
    · rw [if_pos hc2] at herr ⊢
      cases hs : env.sesBus with
      | ok h => simp [hs] at herr
      | error e2 =>
        refine ⟨by simp [IsOpen, hs], ?_⟩
        intro hh _ _ hnc hnd _
        rcases hc2 with h | h
        exacts [absurd h hnc, absurd h hnd]
    · rw [if_neg hc2] at herr ⊢
      cases hd : env.dial address with
      | error e2 =>
        refine ⟨by simp [IsOpen, hd], ?_⟩
        intro hh _ _ _ _ hdial
        simp [hd] at hdial
      | ok h0 =>
        cases ha : env.auth h0 with
        | some e2 =>
          refine ⟨by simp [IsOpen, hd, ha], ?_⟩
          intro hh _ _ _ _ hdial
          have hh0 : h0 = hh := by simpa [hd] using hdial
          subst hh0
          simp [hd, ha]
        | none =>
          cases hhe : env.hello h0 with
          | some e2 =>
            refine ⟨by simp [IsOpen, hd, ha, hhe], ?_⟩
            intro hh _ _ _ _ hdial
            have hh0 : h0 = hh := by simpa [hd] using hdial
            subst hh0
            simp [hd, ha, hhe]
          | none => simp [hd, ha, hhe] at herr

/-- C6, witness: a dial address whose authentication fails leaves the
connection closed and closes the dialed handle. -/
theorem C6_open_rollback_witness :
    IsOpen (Open ⟨.ok 1, .ok 2, fun _ => .ok 7, fun _ => some "auth failed",
        fun _ => none, fun _ => none, fun _ => none, fun _ => none⟩
      NewDBusConn "unix:path=/tmp/x").conn = false ∧
    BusOp.closeCall 7 ∈ (Open ⟨.ok 1, .ok 2, fun _ => .ok 7,
        fun _ => some "auth failed", fun _ => none, fun _ => none,
        fun _ => none, fun _ => none⟩ NewDBusConn "unix:path=/tmp/x").trace := by
  have h := C6_open_rollback ⟨.ok 1, .ok 2, fun _ => .ok 7,
      fun _ => some "auth failed", fun _ => none, fun _ => none,
      fun _ => none, fun _ => none⟩ NewDBusConn "unix:path=/tmp/x"
      "auth failed" rfl
  exact ⟨h.1, h.2 7 (by decide) (by decide) (by decide) (by decide) rfl⟩

/-- C7: `InsertMatchRule` on an open connection is idempotent: an
already-recorded rule is a local no-op success issuing no bus call;
otherwise exactly one `AddMatch` bus call is issued and the rule is
recorded only when that call succeeds, so inserting the same rule twice
(with the call succeeding) issues the bus call exactly once — the second
call is a local no-op. -/
theorem C7_insert_idempotent (env : BusEnv) (conn : dbusConn) (hh : Handle)
    (rule : String) (hopen : conn.dbus = some hh) :
    (rule ∈ conn.matchRules → InsertMatchRule env conn rule = ⟨conn, none, []⟩) ∧
    (rule ∉ conn.matchRules →
      (InsertMatchRule env conn rule).trace = [BusOp.addMatchCall rule] ∧
      (env.addMatch rule = none →
        (InsertMatchRule env conn rule).conn.matchRules = conn.matchRules ++ [rule] ∧
        (InsertMatchRule env conn rule).err = none) ∧
      (∀ e, env.addMatch rule = some e →
        (InsertMatchRule env conn rule).conn = conn ∧
        (InsertMatchRule env conn rule).err = some e)) ∧
    (env.addMatch rule = none →
      (InsertMatchRule env (InsertMatchRule env conn rule).conn rule).trace = []) := by
  refine ⟨?_, ?_, ?_⟩
  · intro hmem
    simp [InsertMatchRule, hopen, hmem]
  · intro hmem
    cases ha : env.addMatch rule <;>
      simp [InsertMatchRule, hopen, hmem, ha]
  · intro ha
    by_cases hmem : rule ∈ conn.matchRules
    · simp [InsertMatchRule, hopen, hmem]
    · simp [InsertMatchRule, hopen, hmem, ha]

/-- C7, witness: on an open connection with no recorded rules, inserting
`"r"` twice issues the `AddMatch` bus call exactly once. -/
theorem C7_insert_idempotent_witness :
    (InsertMatchRule
        ⟨.ok 1, .ok 2, fun _ => .ok 7, fun _ => none, fun _ => none,
          fun _ => none, fun _ => none, fun _ => none⟩
        ⟨some 7, false, []⟩ "r").trace = [BusOp.addMatchCall "r"] ∧
    (InsertMatchRule
        ⟨.ok 1, .ok 2, fun _ => .ok 7, fun _ => none, fun _ => none,
          fun _ => none, fun _ => none, fun _ => none⟩
        (InsertMatchRule
          ⟨.ok 1, .ok 2, fun _ => .ok 7, fun _ => none, fun _ => none,
            fun _ => none, fun _ => none, fun _ => none⟩
          ⟨some 7, false, []⟩ "r").conn "r").trace = [] := by
  have h := C7_insert_idempotent
    ⟨.ok 1, .ok 2, fun _ => .ok 7, fun _ => none, fun _ => none,
      fun _ => none, fun _ => none, fun _ => none⟩
    ⟨some 7, false, []⟩ 7 "r" rfl
  exact ⟨(h.2.1 (by simp)).1, h.2.2 rfl⟩

/-- C9: `Close` on an open shared connection never invokes the underlying
close operation but clears the stored handle and returns success; on an
open exclusive connection it additionally closes the underlying handle; on
an already-closed connection it returns success with no effect. -/
theorem C9_close (env : BusEnv) (conn : dbusConn) :
    (∀ hh, conn.dbus = some hh → conn.exclusive = false →
      Close env conn = ⟨{ conn with dbus := none }, none, []⟩) ∧
    (∀ hh, conn.dbus = some hh → conn.exclusive = true →
      Close env conn =
        ⟨{ conn with dbus := none }, env.closeRes hh, [BusOp.closeCall hh]⟩) ∧
    (conn.dbus = none → Close env conn = ⟨conn, none, []⟩) := by
  refine ⟨?_, ?_, ?_⟩
  · intro hh hopen hsh
    simp [Close, hopen, hsh]
  · intro hh hopen hex
    simp [Close, hopen, hex]
  · intro hclosed
    simp [Close, hclosed]

/-- C9, witness: closing a shared open connection issues no underlying
close call; closing an exclusive one closes handle 7; closing a closed
connection is a no-op success. -/
theorem C9_close_witness :
    Close ⟨.ok 1, .ok 2, fun _ => .ok 7, fun _ => none, fun _ => none,
        fun _ => none, fun _ => none, fun _ => none⟩
      ⟨some 7, false, ["x"]⟩ = ⟨⟨none, false, ["x"]⟩, none, []⟩ ∧
    Close ⟨.ok 1, .ok 2, fun _ => .ok 7, fun _ => none, fun _ => none,
        fun _ => none, fun _ => none, fun _ => none⟩
      ⟨some 7, true, []⟩ = ⟨⟨none, true, []⟩, none, [BusOp.closeCall 7]⟩ ∧
    Close ⟨.ok 1, .ok 2, fun _ => .ok 7, fun _ => none, fun _ => none,
        fun _ => none, fun _ => none, fun _ => none⟩
      NewDBusConn = ⟨NewDBusConn, none, []⟩ := by
  refine ⟨?_, ?_, ?_⟩
  · exact (C9_close _ ⟨some 7, false, ["x"]⟩).1 7 rfl rfl
  · exact (C9_close _ ⟨some 7, true, []⟩).2.1 7 rfl rfl
  · exact (C9_close _ NewDBusConn).2.2 rfl

/-- C10: on a closed connection (no open underlying handle) both
`InsertMatchRule` and `RemoveMatchRule` return success without issuing any
bus call and without modifying the local rule set. -/
theorem C10_closed_rule_noop (env : BusEnv) (conn : dbusConn) (rule : String)
    (hclosed : conn.dbus = none) :
    InsertMatchRule env conn rule = ⟨conn, none, []⟩ ∧
    RemoveMatchRule env conn rule = ⟨conn, none, []⟩ := by
  constructor <;> simp [InsertMatchRule, RemoveMatchRule, hclosed]

/-- C10, witness: rule mutations on a closed connection holding rule `"a"`
are silent no-ops. -/
theorem C10_closed_rule_noop_witness :
    InsertMatchRule ⟨.ok 1, .ok 2, fun _ => .ok 7, fun _ => none,
        fun _ => none, fun _ => none, fun _ => none, fun _ => none⟩
      ⟨none, false, ["a"]⟩ "a" = ⟨⟨none, false, ["a"]⟩, none, []⟩ ∧
    RemoveMatchRule ⟨.ok 1, .ok 2, fun _ => .ok 7, fun _ => none,
        fun _ => none, fun _ => none, fun _ => none, fun _ => none⟩
      ⟨none, false, ["a"]⟩ "a" = ⟨⟨none, false, ["a"]⟩, none, []⟩ :=
  C10_closed_rule_noop _ ⟨none, false, ["a"]⟩ "a" rfl

theorem removeAllLoop_force (env : BusEnv) :
    ∀ (rules : List String) (conn : dbusConn) (hh : Handle) (err0 : Option String)
      (tr : List BusOp),
      conn.dbus = some hh → rules.Nodup → (∀ r ∈ rules, r ∈ conn.matchRules) →
      (removeAllLoop env true rules conn err0 tr).2.2
        = tr ++ rules.map BusOp.removeMatchCall := by
  intro rules
  induction rules with
  | nil =>
    intro conn hh err0 tr _ _ _
    simp [removeAllLoop]
  | cons r rs ih =>
    intro conn hh err0 tr hopen hnd hsub
    have hmem : r ∈ conn.matchRules := hsub r (by simp)
    have hrnotin : r ∉ rs := (List.nodup_cons.mp hnd).1
    have hndtail : rs.Nodup := (List.nodup_cons.mp hnd).2
    cases hrm : env.removeMatch r with
    | none =>
      have hres : RemoveMatchRule env conn r =
          ⟨{ conn with matchRules := conn.matchRules.filter (fun x => x ≠ r) },
            none, [BusOp.removeMatchCall r]⟩ := by
        simp [RemoveMatchRule, hopen, hmem, hrm]
      have hsub2 : ∀ x ∈ rs,
          x ∈ conn.matchRules.filter (fun y => y ≠ r) := by
        intro x hx
        rw [List.mem_filter]
        refine ⟨hsub x (by simp [hx]), ?_⟩
        simp only [decide_eq_true_eq]
        intro hxr
        exact hrnotin (hxr ▸ hx)
      simp only [removeAllLoop, hres]
      rw [if_neg (by simp)]
      rw [ih { conn with matchRules := conn.matchRules.filter (fun y => y ≠ r) }
        hh none (tr ++ [BusOp.removeMatchCall r]) hopen hndtail hsub2]
      simp
    | some e =>
      have hres : RemoveMatchRule env conn r =
          ⟨conn, some e, [BusOp.removeMatchCall r]⟩ := by
        simp [RemoveMatchRule, hopen, hmem, hrm]
      have hsub2 : ∀ x ∈ rs, x ∈ conn.matchRules := fun x hx => hsub x (by simp [hx])
      simp only [removeAllLoop, hres]
      rw [if_neg (by simp)]
      rw [ih conn hh (some e) (tr ++ [BusOp.removeMatchCall r]) hopen hndtail hsub2]
      simp

theorem removeAllLoop_stop (env : BusEnv) :
    ∀ (pre : List String) (r : String) (post : List String) (conn : dbusConn)
      (hh : Handle) (e : String) (err0 : Option String) (tr : List BusOp),
      conn.dbus = some hh → conn.matchRules = pre ++ r :: post →
      (pre ++ r :: post).Nodup →
      (∀ x ∈ pre, env.removeMatch x = none) → env.removeMatch r = some e →
      (removeAllLoop env false (pre ++ r :: post) conn err0 tr).1.matchRules
          = r :: post ∧
      (removeAllLoop env false (pre ++ r :: post) conn err0 tr).2.1 = some e ∧
      (removeAllLoop env false (pre ++ r :: post) conn err0 tr).2.2
          = tr ++ pre.map BusOp.removeMatchCall ++ [BusOp.removeMatchCall r] := by
  intro pre
  induction pre with
  | nil =>
    intro r post conn hh e err0 tr hopen hmr hnd hpre hrm
    have hmem : r ∈ conn.matchRules := by
      rw [hmr]; simp
    have hres : RemoveMatchRule env conn r =
        ⟨conn, some e, [BusOp.removeMatchCall r]⟩ := by
      simp [RemoveMatchRule, hopen, hmem, hrm]
    simp only [List.nil_append, removeAllLoop, hres]
    rw [if_pos (by simp)]
    simp [hmr]
  | cons p ps ih =>
    intro r post conn hh e err0 tr hopen hmr hnd hpre hrm
    have hmem : p ∈ conn.matchRules := by
      rw [hmr]; simp
    have hpnotin : p ∉ ps ++ r :: post := (List.nodup_cons.mp hnd).1
    have hndtail : (ps ++ r :: post).Nodup := (List.nodup_cons.mp hnd).2
    have hprm : env.removeMatch p = none := hpre p (by simp)
    have hres : RemoveMatchRule env conn p =
        ⟨{ conn with matchRules := conn.matchRules.filter (fun x => x ≠ p) },
          none, [BusOp.removeMatchCall p]⟩ := by
      simp [RemoveMatchRule, hopen, hmem, hprm]
    have hfil : conn.matchRules.filter (fun x => x ≠ p) = ps ++ r :: post := by
      rw [hmr]
      rw [List.cons_append, List.filter_cons]
      rw [if_neg (by simp)]
      apply List.filter_eq_self.mpr
      intro a ha
      simp only [decide_eq_true_eq]
      intro hap
      exact hpnotin (hap ▸ ha)
    have hih := ih r post
      { conn with matchRules := conn.matchRules.filter (fun x => x ≠ p) }
      hh e none (tr ++ [BusOp.removeMatchCall p]) hopen hfil hndtail
      (fun x hx => hpre x (by simp [hx])) hrm
    simp only [List.cons_append, removeAllLoop, hres]
    rw [if_neg (by simp)]
    exact ⟨hih.1, hih.2.1, hih.2.2.trans (by simp)⟩

/-- C8: `RemoveAllMatchRules` in forced mode unconditionally leaves the
local match-rule set empty for every connection state, and on an open
connection attempts removal of every currently-recorded rule (one
`RemoveMatch` bus call per rule) even if calls fail; in non-forced mode it
stops at the first failing removal, so exactly the rules before the failing
one (the ones confirmed removed) are deleted from the set. -/
theorem C8_removeAll (env : BusEnv) :
    (∀ conn : dbusConn,
      (RemoveAllMatchRules env conn true).conn.matchRules = []) ∧
    (∀ (conn : dbusConn) (hh : Handle), conn.dbus = some hh →
      conn.matchRules.Nodup →
      (RemoveAllMatchRules env conn true).trace
        = conn.matchRules.map BusOp.removeMatchCall) ∧
    (∀ (conn : dbusConn) (hh : Handle) (pre : List String) (r : String)
        (post : List String) (e : String),
      conn.dbus = some hh → conn.matchRules = pre ++ r :: post →
      (pre ++ r :: post).Nodup →
      (∀ x ∈ pre, env.removeMatch x = none) → env.removeMatch r = some e →
      (RemoveAllMatchRules env conn false).conn.matchRules = r :: post ∧
      (RemoveAllMatchRules env conn false).err = some e ∧
      (RemoveAllMatchRules env conn false).trace
        = pre.map BusOp.removeMatchCall ++ [BusOp.removeMatchCall r]) := by
  refine ⟨?_, ?_, ?_⟩
  · intro conn
    simp [RemoveAllMatchRules]
  · intro conn hh hopen hnd
    have h := removeAllLoop_force env conn.matchRules conn hh none [] hopen hnd
      (fun r hr => hr)
    simp only [RemoveAllMatchRules]
    simpa using h
  · intro conn hh pre r post e hopen hmr hnd hpre hrm
    have h := removeAllLoop_stop env pre r post conn hh e none [] hopen hmr hnd
      hpre hrm
    simp only [RemoveAllMatchRules]
    rw [hmr]
    simpa using h

/-- C8, witness: on an open connection recording `["r1","r2","r3"]` with the
bus failing to remove `"r2"`, forced removal clears the set while issuing
all three `RemoveMatch` calls, and non-forced removal stops at `"r2"`,
leaving `["r2","r3"]` recorded. -/
theorem C8_removeAll_witness :
    (RemoveAllMatchRules
        ⟨.ok 1, .ok 2, fun _ => .ok 7, fun _ => none, fun _ => none,
          fun _ => none, fun _ => none,
          fun r => if r = "r2" then some "boom" else none⟩
        ⟨some 7, false, ["r1", "r2", "r3"]⟩ true).conn.matchRules = [] ∧
    (RemoveAllMatchRules
        ⟨.ok 1, .ok 2, fun _ => .ok 7, fun _ => none, fun _ => none,
          fun _ => none, fun _ => none,
          fun r => if r = "r2" then some "boom" else none⟩
        ⟨some 7, false, ["r1", "r2", "r3"]⟩ true).trace
      = [BusOp.removeMatchCall "r1", BusOp.removeMatchCall "r2",
         BusOp.removeMatchCall "r3"] ∧
    (RemoveAllMatchRules
        ⟨.ok 1, .ok 2, fun _ => .ok 7, fun _ => none, fun _ => none,
          fun _ => none, fun _ => none,
          fun r => if r = "r2" then some "boom" else none⟩
        ⟨some 7, false, ["r1", "r2", "r3"]⟩ false).conn.matchRules
      = ["r2", "r3"] := by
  have h := C8_removeAll
    ⟨.ok 1, .ok 2, fun _ => .ok 7, fun _ => none, fun _ => none,
      fun _ => none, fun _ => none,
      fun r => if r = "r2" then some "boom" else none⟩
  refine ⟨h.1 ⟨some 7, false, ["r1", "r2", "r3"]⟩, ?_, ?_⟩
  · exact h.2.1 ⟨some 7, false, ["r1", "r2", "r3"]⟩ 7 rfl (by decide)
  · exact (h.2.2 ⟨some 7, false, ["r1", "r2", "r3"]⟩ 7 ["r1"] "r2" ["r3"] "boom"
      rfl rfl (by decide) (by decide) (by decide)).1

end StUtil
